import Mathlib

/-!
Verification of the data-preparation and prompt-formatting logic of the two
fine-tuning scripts in this repository:

* `scripts/train_crypto_embeddings.py` (class `CryptoEmbeddingTrainer`)
* `scripts/train_regime_classifier.py` (class `RegimeClassifierTrainer`)

Python text values are embedded as `List Char`; the file system is embedded as
a function from paths to optional file contents; JSON decoding (`json.load` /
`json.loads`, an external library call) is embedded as an explicit parameter
returning `Except`, so that a raised `JSONDecodeError` is an `error` value.
All model loading, tokenization and gradient training is delegated by the
scripts to external ML libraries and is outside the scope of these claims;
the embedded `train` functions cover the script-owned part of the pipeline:
load the input file, then format every record, producing the dataset that the
script would hand to the external trainer.
-/

/-- Python strings are embedded as lists of characters. -/
abbrev Str := List Char

/-- Embed a Lean string literal as a `Str`. -/
def txt (s : String) : Str := s.data

/-- Errors raised by the script-owned part of either pipeline:
`notFound` embeds Python's `FileNotFoundError` raised by `open`, and
`dataFormat` embeds `json.JSONDecodeError` raised by `json.load`/`json.loads`
(the spec's `NotFoundError` and `DataFormatError`). -/
inductive LoadError where
  | notFound (path : Str)
  | dataFormat (msg : Str)
deriving DecidableEq

/-- `isDataFormatError r` holds exactly when `r` is a `dataFormat` failure. -/
def isDataFormatError {α : Type} : Except LoadError α → Bool
  | .error (.dataFormat _) => true
  | _ => false

/-- Python's substring test `needle in hay`. -/
def isSub (needle : Str) : Str → Bool
  | [] => needle.isEmpty
  | c :: t => needle.isPrefixOf (c :: t) || isSub needle t

/-- The suffix of the text after the last occurrence of `delim`
(`[]` when the text is empty). -/
def afterLast (delim : Str) : Str → Str
  | [] => []
  | c :: rest =>
    if isSub delim rest then afterLast delim rest
    else if delim.isPrefixOf (c :: rest) then (c :: rest).drop delim.length
    else afterLast delim rest

/-- Python's `text.split(delim)[-1]`: the part of the text after the last
occurrence of `delim`, or the whole text when `delim` does not occur.  (The
only delimiter used by the scripts is `"[/INST]"`, whose occurrences cannot
overlap each other, so the last piece of Python's non-overlapping split is
exactly the suffix after the last occurrence.) -/
def splitLastPart (delim text : Str) : Str :=
  if isSub delim text then afterLast delim text else text

/-- Python's `text.strip()`: remove leading and trailing whitespace. -/
def strip (s : Str) : Str :=
  ((s.dropWhile Char.isWhitespace).reverse.dropWhile Char.isWhitespace).reverse

/-- Python's `text.lower()`. -/
def lower (s : Str) : Str := s.map Char.toLower

/-- One record of the embedding training file: an object
`{anchor, positive, negative}` (spec section 3, "Training pair"). -/
structure EmbeddingRecord where
  anchor : Str
  positive : Str
  negative : Str
deriving DecidableEq

/-- `sentence_transformers.InputExample(texts=[...])`: the only field the
script sets is the list of texts. -/
structure InputExample where
  texts : List Str
deriving DecidableEq

namespace CryptoEmbeddingTrainer

/-- `CryptoEmbeddingTrainer.load_training_data`: open the file (a missing
path raises `FileNotFoundError`) and decode its whole contents as one JSON
document holding the list of records (`json.load`; a decode failure raises
`JSONDecodeError`). -/
def load_training_data {α : Type} (fs : Str → Option Str)
    (parse : Str → Except Str (List α)) (filepath : Str) :
    Except LoadError (List α) :=
  match fs filepath with
  | none => .error (.notFound filepath)
  | some contents =>
    match parse contents with
    | .error m => .error (.dataFormat m)
    | .ok data => .ok data

/-- `CryptoEmbeddingTrainer.prepare_examples`: for each record, in order,
append one `InputExample` with `texts=[item['anchor'], item['positive'],
item['negative']]`. -/
def prepare_examples (data : List EmbeddingRecord) : List InputExample :=
  data.map (fun item => ⟨[item.anchor, item.positive, item.negative]⟩)

/-- The script-owned data path of `CryptoEmbeddingTrainer.train`: load the
training file, then convert the records to `InputExample`s.  The resulting
list is what the script wraps in a `DataLoader` and hands to the external
trainer; an `error` result aborts the run before any example is prepared. -/
def train (fs : Str → Option Str)
    (parse : Str → Except Str (List EmbeddingRecord)) (filepath : Str) :
    Except LoadError (List InputExample) :=
  match load_training_data fs parse filepath with
  | .error e => .error e
  | .ok data => .ok (prepare_examples data)

end CryptoEmbeddingTrainer

/-- One record of the regime training file: an object
`{instruction, input, output}`, one per JSONL line. -/
structure RegimeExample where
  instruction : Str
  input : Str
  output : Str
deriving DecidableEq

namespace RegimeClassifierTrainer

/-- The loop body of `RegimeClassifierTrainer.load_training_data`: for each
line of the file, in order, `data.append(json.loads(line))`; a line that
fails to decode raises `JSONDecodeError`, aborting the loop. -/
def read_lines {α : Type} (parse : Str → Except Str α) :
    List Str → Except LoadError (List α)
  | [] => .ok []
  | l :: ls =>
    match parse l with
    | .error m => .error (.dataFormat m)
    | .ok a =>
      match read_lines parse ls with
      | .error e => .error e
      | .ok rest => .ok (a :: rest)

/-- `RegimeClassifierTrainer.load_training_data`: open the file (a missing
path raises `FileNotFoundError`), then decode it line by line. -/
def load_training_data {α : Type} (fs : Str → Option (List Str))
    (parse : Str → Except Str α) (filepath : Str) :
    Except LoadError (List α) :=
  match fs filepath with
  | none => .error (.notFound filepath)
  | some lines => read_lines parse lines

/-- The fixed classification directive appearing verbatim in both the
training template and the evaluation prompt. -/
def classify_directive : Str :=
  txt "Classify the market regime as one of: bull, bear, sideways, or high-volatility"

/-- `RegimeClassifierTrainer.format_prompt`, the f-string template
`<s>[INST] {instruction}\n\n{input}\n\nClassify the market regime as one of:
bull, bear, sideways, or high-volatility [/INST] {output}</s>`
written as the concatenation of its literal segments and the three fields. -/
def format_prompt (ex : RegimeExample) : Str :=
  txt "<s>[INST] " ++ ex.instruction ++ txt "\n\n" ++ ex.input ++ txt "\n\n" ++
    classify_directive ++ txt " " ++ txt "[/INST]" ++ txt " " ++ ex.output ++ txt "</s>"

/-- `RegimeClassifierTrainer.prepare_dataset`: format every record
(`[self.format_prompt(ex) for ex in data]`); the resulting list of strings is
the dataset handed to tokenization. -/
def prepare_dataset (data : List RegimeExample) : List Str :=
  data.map format_prompt

/-- The script-owned data path of `RegimeClassifierTrainer.train`: load the
JSONL file, then format every record.  An `error` result aborts the run
before any prompt is formatted or any trainer object is built. -/
def train (fs : Str → Option (List Str))
    (parse : Str → Except Str RegimeExample) (filepath : Str) :
    Except LoadError (List Str) :=
  match load_training_data fs parse filepath with
  | .error e => .error e
  | .ok data => .ok (prepare_dataset data)

/-- The fixed instruction text hard-coded in the evaluation prompt of
`RegimeClassifierTrainer.test_classifier`. -/
def test_instruction : Str :=
  txt "Analyze market conditions and classify regime:"

/-- The evaluation prompt of `RegimeClassifierTrainer.test_classifier`, the
f-string `<s>[INST] Analyze market conditions and classify regime:\n\n
{test['input']}\n\nClassify the market regime as one of: bull, bear,
sideways, or high-volatility [/INST]` written as the concatenation of its
literal segments and the test input. -/
def test_prompt (input : Str) : Str :=
  txt "<s>[INST] " ++ test_instruction ++ txt "\n\n" ++ input ++ txt "\n\n" ++
    classify_directive ++ txt " " ++ txt "[/INST]"

/-- One entry of the hard-coded `test_cases` list of
`RegimeClassifierTrainer.test_classifier`. -/
structure TestCase where
  input : Str
  expected : Str
deriving DecidableEq

/-- First hard-coded test case (expected label `bull`). -/
def test_case_1 : TestCase :=
  ⟨txt "Price: $48,230.00\n30-day change: 15.30%\nVolatility (30d): 2.80%\nRSI: 68.5\nVolume trend: increasing\nPrice position: 85.2% of 30-day range\nMACD signal: bullish",
   txt "bull"⟩

/-- Second hard-coded test case (expected label `bear`). -/
def test_case_2 : TestCase :=
  ⟨txt "Price: $42,100.00\n30-day change: -12.50%\nVolatility (30d): 3.20%\nRSI: 32.1\nVolume trend: decreasing\nPrice position: 15.8% of 30-day range\nMACD signal: bearish",
   txt "bear"⟩

/-- Third hard-coded test case (expected label `sideways`). -/
def test_case_3 : TestCase :=
  ⟨txt "Price: $45,000.00\n30-day change: -2.10%\nVolatility (30d): 1.50%\nRSI: 51.0\nVolume trend: stable\nPrice position: 48.5% of 30-day range\nMACD signal: neutral",
   txt "sideways"⟩

/-- The hard-coded `test_cases` list of `test_classifier`. -/
def test_cases : List TestCase := [test_case_1, test_case_2, test_case_3]

/-- The four regime labels, in the order the extraction loop of
`test_classifier` scans them. -/
def regime_labels : List Str :=
  [txt "bull", txt "bear", txt "sideways", txt "high-volatility"]

/-- The label-extraction loop of `test_classifier`:
`for regime in [...]: if regime in prediction: prediction = regime; break`.
When no label is a substring, the prediction is left unchanged. -/
def extract_label (prediction : Str) : Str :=
  if isSub (txt "bull") prediction then txt "bull"
  else if isSub (txt "bear") prediction then txt "bear"
  else if isSub (txt "sideways") prediction then txt "sideways"
  else if isSub (txt "high-volatility") prediction then txt "high-volatility"
  else prediction

/-- `result.split("[/INST]")[-1].strip().lower()`: the prediction string of
`test_classifier` before the label-extraction loop, derived from the decoded
generation output `result`. -/
def raw_prediction (result : Str) : Str :=
  lower (strip (splitLastPart (txt "[/INST]") result))

/-- The final prediction of `test_classifier` for decoded output `result`:
the label-extraction loop applied to the post-processed prediction. -/
def predicted_label (result : Str) : Str :=
  extract_label (raw_prediction result)

/-- The pass/fail comparison printed by `test_classifier`:
`prediction == test['expected']`. -/
def test_passes (expected result : Str) : Bool :=
  predicted_label result == expected

end RegimeClassifierTrainer

open RegimeClassifierTrainer

/-! ### Helper lemmas -/

/-- `isSub` decides list-infix containment, i.e. Python's `in` on strings. -/
theorem isSub_correct (needle : Str) :
    ∀ hay : Str, isSub needle hay = true ↔ needle <:+: hay := by
  intro hay
  induction hay with
  | nil =>
    simp [isSub, List.isEmpty_iff, List.infix_nil]
  | cons c t ih =>
    simp [isSub, Bool.or_eq_true, List.isPrefixOf_iff_prefix, ih,
      List.infix_cons_iff]

/-- When every line decodes, `read_lines` returns exactly the decoded
records, in line order. -/
theorem read_lines_ok {α : Type} (parse : Str → Except Str α)
    {lines : List Str} {records : List α}
    (h : List.Forall₂ (fun l r => parse l = Except.ok r) lines records) :
    read_lines parse lines = Except.ok records := by
  induction h with
  | nil => rfl
  | cons h₁ _ ih => simp [read_lines, h₁, ih]

/-- When some line fails to decode, `read_lines` returns a `dataFormat`
error. -/
theorem read_lines_mem_error {α : Type} (parse : Str → Except Str α) :
    ∀ (lines : List Str) (l msg : Str), l ∈ lines → parse l = Except.error msg →
    isDataFormatError (read_lines parse lines) = true := by
  intro lines
  induction lines with
  | nil =>
    intro l msg hmem _
    exact absurd hmem (List.not_mem_nil l)
  | cons a as ih =>
    intro l msg hmem hbad
    cases ha : parse a with
    | error m => simp [read_lines, ha, isDataFormatError]
    | ok r =>
      rcases List.mem_cons.mp hmem with h | h
      · subst h
        rw [ha] at hbad
        cases hbad
      · have hrec := ih l msg h hbad
        cases hrest : read_lines parse as with
        | error e =>
          rw [hrest] at hrec
          cases e with
          | notFound p => simp [isDataFormatError] at hrec
          | dataFormat m => simp [read_lines, ha, hrest, isDataFormatError]
        | ok rest => rw [hrest] at hrec; simp [isDataFormatError] at hrec

/-! ### Claim theorems -/

/-- C1: for every regime record, `format_prompt` returns a string containing
verbatim the record's instruction text, the record's input block and the
fixed four-label enumeration, and the record's output appears after the
closing `[/INST]` delimiter. -/
theorem format_prompt_contains_fields (ex : RegimeExample) :
    ex.instruction <:+: format_prompt ex ∧
    ex.input <:+: format_prompt ex ∧
    classify_directive <:+: format_prompt ex ∧
    ∃ s t, format_prompt ex = s ++ txt "[/INST]" ++ t ∧ ex.output <:+: t := by
  refine ⟨⟨txt "<s>[INST] ",
      txt "\n\n" ++ ex.input ++ txt "\n\n" ++ classify_directive ++ txt " " ++
        txt "[/INST]" ++ txt " " ++ ex.output ++ txt "</s>", ?_⟩,
    ⟨txt "<s>[INST] " ++ ex.instruction ++ txt "\n\n",
      txt "\n\n" ++ classify_directive ++ txt " " ++ txt "[/INST]" ++ txt " " ++
        ex.output ++ txt "</s>", ?_⟩,
    ⟨txt "<s>[INST] " ++ ex.instruction ++ txt "\n\n" ++ ex.input ++ txt "\n\n",
      txt " " ++ txt "[/INST]" ++ txt " " ++ ex.output ++ txt "</s>", ?_⟩,
    txt "<s>[INST] " ++ ex.instruction ++ txt "\n\n" ++ ex.input ++ txt "\n\n" ++
      classify_directive ++ txt " ",
    txt " " ++ ex.output ++ txt "</s>", ?_,
    ⟨txt " ", txt "</s>", rfl⟩⟩ <;>
  simp [format_prompt, List.append_assoc]

/-- C4: `prepare_examples` yields exactly one example per record, in input
order, whose texts are the three field values in the order
(anchor, positive, negative), unaltered; in particular the spec's
end-to-end scenario 1 holds. -/
theorem prepare_examples_exact (data : List EmbeddingRecord) :
    (CryptoEmbeddingTrainer.prepare_examples data).length = data.length ∧
    (∀ i : Nat, (CryptoEmbeddingTrainer.prepare_examples data)[i]? =
      data[i]?.map (fun item => ⟨[item.anchor, item.positive, item.negative]⟩)) ∧
    CryptoEmbeddingTrainer.prepare_examples
        [⟨txt "BTC surge", txt "Bitcoin rally", txt "ETH crash"⟩] =
      [⟨[txt "BTC surge", txt "Bitcoin rally", txt "ETH crash"]⟩] := by
  refine ⟨by simp [CryptoEmbeddingTrainer.prepare_examples], fun i => ?_, rfl⟩
  simp [CryptoEmbeddingTrainer.prepare_examples, List.getElem?_map]

/-- C5 counterexample: the prompt rendered for the record
`{instruction: "Classify", input: "RSI: 70", output: "bull"}` does not end
with the gold label `"bull"`: the template appends `"</s>"` after it. -/
theorem format_prompt_rsi70_not_ending_in_bull :
    ¬ (txt "bull" <:+
      format_prompt ⟨txt "Classify", txt "RSI: 70", txt "bull"⟩) := by
  decide

/-- C5 amended: the prompt rendered for the record
`{instruction: "Classify", input: "RSI: 70", output: "bull"}` contains the
substring `"RSI: 70"` and ends with the gold label `"bull"` followed by the
end-of-sequence marker `"</s>"`, the label being placed after the closing
instruction tag. -/
theorem format_prompt_rsi70_scenario :
    txt "RSI: 70" <:+: format_prompt ⟨txt "Classify", txt "RSI: 70", txt "bull"⟩ ∧
    txt "bull</s>" <:+ format_prompt ⟨txt "Classify", txt "RSI: 70", txt "bull"⟩ ∧
    ∃ s, format_prompt ⟨txt "Classify", txt "RSI: 70", txt "bull"⟩ =
      s ++ txt "[/INST]" ++ txt " " ++ txt "bull" ++ txt "</s>" :=
  ⟨⟨txt "<s>[INST] Classify\n\n",
    txt "\n\nClassify the market regime as one of: bull, bear, sideways, or high-volatility [/INST] bull</s>",
    by decide⟩,
   ⟨txt "<s>[INST] Classify\n\nRSI: 70\n\nClassify the market regime as one of: bull, bear, sideways, or high-volatility [/INST] ",
    by decide⟩,
   ⟨txt "<s>[INST] Classify\n\nRSI: 70\n\nClassify the market regime as one of: bull, bear, sideways, or high-volatility ",
    by decide⟩⟩

/-- C6: for each of the three fixed regime test cases, the evaluation prompt
of `test_classifier` is exactly the training-time prompt of `format_prompt`
(for the harness's instruction and the same input) with the trailing
`" {output}</s>"` removed, and it ends with the closing `[/INST]`
delimiter. -/
theorem test_prompt_refines_format_prompt (tc : TestCase)
    (_h : tc ∈ test_cases) (out : Str) :
    format_prompt ⟨test_instruction, tc.input, out⟩ =
      test_prompt tc.input ++ txt " " ++ out ++ txt "</s>" ∧
    ∃ s, test_prompt tc.input = s ++ txt "[/INST]" := by
  constructor
  · simp [format_prompt, test_prompt, List.append_assoc]
  · exact ⟨txt "<s>[INST] " ++ test_instruction ++ txt "\n\n" ++ tc.input ++
      txt "\n\n" ++ classify_directive ++ txt " ",
      by simp [test_prompt, List.append_assoc]⟩

/-- C6 witness: instantiation at the first fixed test case with gold output
`"bull"`. -/
theorem test_prompt_refines_format_prompt_witness :
    format_prompt ⟨test_instruction, test_case_1.input, txt "bull"⟩ =
      test_prompt test_case_1.input ++ txt " " ++ txt "bull" ++ txt "</s>" :=
  (test_prompt_refines_format_prompt test_case_1 (by decide) (txt "bull")).1

/-- C2: the label-extraction loop returns the first label, in the fixed
priority order bull, bear, sideways, high-volatility, that occurs as a
substring of the scanned text, even when several labels occur; the returned
label does occur in the text and is one of the four. -/
theorem extract_label_first_priority (t l : Str)
    (h : regime_labels.find? (fun r => isSub r t) = some l) :
    extract_label t = l ∧ l <:+: t ∧ l ∈ regime_labels := by
  have hmem := List.mem_of_find?_eq_some h
  have hl : isSub l t = true := by simpa using List.find?_some h
  refine ⟨?_, (isSub_correct l t).mp hl, hmem⟩
  simp only [regime_labels] at h
  cases h1 : isSub (txt "bull") t with
  | true =>
    rw [List.find?_cons_of_pos (p := fun r => isSub r t) _ h1] at h
    injection h with h
    subst h
    simp [extract_label, h1]
  | false =>
    rw [List.find?_cons_of_neg _ (by simp [h1])] at h
    cases h2 : isSub (txt "bear") t with
    | true =>
      rw [List.find?_cons_of_pos (p := fun r => isSub r t) _ h2] at h
      injection h with h
      subst h
      simp [extract_label, h1, h2]
    | false =>
      rw [List.find?_cons_of_neg _ (by simp [h2])] at h
      cases h3 : isSub (txt "sideways") t with
      | true =>
        rw [List.find?_cons_of_pos (p := fun r => isSub r t) _ h3] at h
        injection h with h
        subst h
        simp [extract_label, h1, h2, h3]
      | false =>
        rw [List.find?_cons_of_neg _ (by simp [h3])] at h
        cases h4 : isSub (txt "high-volatility") t with
        | true =>
          rw [List.find?_cons_of_pos (p := fun r => isSub r t) _ h4] at h
          injection h with h
          subst h
          simp [extract_label, h1, h2, h3, h4]
        | false =>
          rw [List.find?_cons_of_neg _ (by simp [h4])] at h
          simp at h

/-- C2 witness: `"bearish bull"` contains both `"bear"` (earlier in the
text) and `"bull"`; the loop returns `"bull"`, the first in priority
order. -/
theorem extract_label_first_priority_witness :
    extract_label (txt "bearish bull") = txt "bull" ∧
    txt "bull" <:+: txt "bearish bull" ∧ txt "bull" ∈ regime_labels :=
  extract_label_first_priority (txt "bearish bull") (txt "bull") (by decide)

/-- C9: the label-extraction loop is idempotent on already-clean label
strings: applied to a text that is exactly one of the four labels it
returns that same label. -/
theorem extract_label_idempotent (l : Str) (h : l ∈ regime_labels) :
    extract_label l = l := by
  simp only [regime_labels, List.mem_cons, List.not_mem_nil, or_false] at h
  rcases h with rfl | rfl | rfl | rfl <;> decide

/-- C9 witness: extracting from `"bull"` returns `"bull"`. -/
theorem extract_label_idempotent_witness :
    txt "bull" ∈ regime_labels ∧ extract_label (txt "bull") = txt "bull" :=
  ⟨by decide, extract_label_idempotent (txt "bull") (by decide)⟩

/-- C10 counterexample: for the decoded generation output `"XBULL"`, no
regime label occurs as a substring of the generated text, yet the final
prediction is not the stripped, lowercased text after the last `[/INST]`
delimiter: lowercasing creates the substring `"bull"`, which the loop then
extracts. -/
theorem predicted_label_raw_text_cex :
    (∀ l ∈ regime_labels, isSub l (txt "XBULL") = false) ∧
    predicted_label (txt "XBULL") ≠ raw_prediction (txt "XBULL") := by
  decide

/-- C10 amended: if none of the four labels occurs as a substring of the
prediction derived from the generated text (the part after the last
`[/INST]` delimiter, stripped of surrounding whitespace and lowercased),
label extraction does not fail and does not return a default label: the
final prediction is that derived text, and the comparison reports a
mismatch unless the expected label equals it exactly. -/
theorem predicted_label_no_match_passthrough (result : Str)
    (h : ∀ l ∈ regime_labels, isSub l (raw_prediction result) = false) :
    predicted_label result = raw_prediction result ∧
    ∀ expected : Str,
      (test_passes expected result = true ↔ expected = raw_prediction result) := by
  have h1 := h (txt "bull") (by decide)
  have h2 := h (txt "bear") (by decide)
  have h3 := h (txt "sideways") (by decide)
  have h4 := h (txt "high-volatility") (by decide)
  have hp : predicted_label result = raw_prediction result := by
    simp [predicted_label, extract_label, h1, h2, h3, h4]
  refine ⟨hp, fun expected => ?_⟩
  simp only [test_passes, hp, beq_iff_eq]
  exact eq_comm

/-- C10 witness: for the generation output `"unknown"`, which contains no
label, the prediction passes through unchanged and the comparison against
`"bull"` is an equality test against that raw text. -/
theorem predicted_label_no_match_passthrough_witness :
    predicted_label (txt "unknown") = raw_prediction (txt "unknown") ∧
    (test_passes (txt "bull") (txt "unknown") = true ↔
      txt "bull" = raw_prediction (txt "unknown")) := by
  have h := predicted_label_no_match_passthrough (txt "unknown") (by decide)
  exact ⟨h.1, h.2 (txt "bull")⟩

/-- C3: for every valid input file, each loader returns a sequence whose
length equals the number of records in the source file, with elements in
source order: the embedding loader returns exactly the decoded array, and
the regime loader returns exactly the decoded lines, one record per line,
in line order. -/
theorem loaders_preserve_length_and_order {α β : Type}
    (fsE : Str → Option Str) (parseE : Str → Except Str (List β))
    (pathE doc : Str) (recsE : List β)
    (fsR : Str → Option (List Str)) (parseR : Str → Except Str α)
    (pathR : Str) (lines : List Str) (recsR : List α)
    (hE1 : fsE pathE = some doc) (hE2 : parseE doc = Except.ok recsE)
    (hR1 : fsR pathR = some lines)
    (hR2 : List.Forall₂ (fun l r => parseR l = Except.ok r) lines recsR) :
    CryptoEmbeddingTrainer.load_training_data fsE parseE pathE = Except.ok recsE ∧
    RegimeClassifierTrainer.load_training_data fsR parseR pathR = Except.ok recsR ∧
    recsR.length = lines.length := by
  refine ⟨?_, ?_, hR2.length_eq.symm⟩
  · simp [CryptoEmbeddingTrainer.load_training_data, hE1, hE2]
  · simp [load_training_data, hR1, read_lines_ok parseR hR2]

/-- C3 witness: a one-record embedding file and a two-line regime file are
loaded to sequences of the same length and order. -/
theorem loaders_preserve_length_and_order_witness :
    CryptoEmbeddingTrainer.load_training_data (fun _ => some (txt "doc"))
        (fun _ => Except.ok [txt "r1"]) (txt "pairs.json") =
      Except.ok [txt "r1"] ∧
    RegimeClassifierTrainer.load_training_data
        (fun _ => some [txt "la", txt "lb"]) (fun l => Except.ok l)
        (txt "regime.jsonl") =
      Except.ok [txt "la", txt "lb"] ∧
    ([txt "la", txt "lb"] : List Str).length =
      ([txt "la", txt "lb"] : List Str).length :=
  loaders_preserve_length_and_order (fun _ => some (txt "doc"))
    (fun _ => Except.ok [txt "r1"]) (txt "pairs.json") (txt "doc") [txt "r1"]
    (fun _ => some [txt "la", txt "lb"]) (fun l => Except.ok l)
    (txt "regime.jsonl") [txt "la", txt "lb"] [txt "la", txt "lb"]
    rfl rfl rfl
    (List.Forall₂.cons rfl (List.Forall₂.cons rfl List.Forall₂.nil))

/-- C7: if any line of the regime JSONL input file fails to decode as JSON,
the loader fails with a `dataFormat` error (so no record sequence is
returned) rather than silently skipping the line. -/
theorem load_malformed_line_dataFormat {α : Type}
    (fs : Str → Option (List Str)) (parse : Str → Except Str α)
    (path : Str) (lines : List Str) (l msg : Str)
    (hfs : fs path = some lines) (hmem : l ∈ lines)
    (hbad : parse l = Except.error msg) :
    isDataFormatError (load_training_data fs parse path) = true := by
  have heq : load_training_data fs parse path = read_lines parse lines := by
    unfold load_training_data
    rw [hfs]
  rw [heq]
  exact read_lines_mem_error parse lines l msg hmem hbad

/-- C7 witness: a file whose second line is malformed makes the loader
return a `dataFormat` error. -/
theorem load_malformed_line_dataFormat_witness :
    isDataFormatError (RegimeClassifierTrainer.load_training_data
      (fun _ => some [txt "good", txt "bad"])
      (fun l => if l = txt "bad" then Except.error (txt "invalid json")
        else Except.ok l)
      (txt "regime.jsonl")) = true :=
  load_malformed_line_dataFormat (fun _ => some [txt "good", txt "bad"])
    (fun l => if l = txt "bad" then Except.error (txt "invalid json")
      else Except.ok l)
    (txt "regime.jsonl") [txt "good", txt "bad"] (txt "bad")
    (txt "invalid json") rfl (by decide) rfl

/-- C8: when the input file path does not exist, each pipeline's `train`
fails with a `notFound` error; the failure precedes all formatting and
trainer invocation, so the error result carries no formatted dataset. -/
theorem train_missing_input_file
    (fsE : Str → Option Str) (parseE : Str → Except Str (List EmbeddingRecord))
    (pathE : Str)
    (fsR : Str → Option (List Str)) (parseR : Str → Except Str RegimeExample)
    (pathR : Str)
    (hE : fsE pathE = none) (hR : fsR pathR = none) :
    CryptoEmbeddingTrainer.train fsE parseE pathE =
      Except.error (LoadError.notFound pathE) ∧
    RegimeClassifierTrainer.train fsR parseR pathR =
      Except.error (LoadError.notFound pathR) := by
  constructor
  · simp [CryptoEmbeddingTrainer.train, CryptoEmbeddingTrainer.load_training_data, hE]
  · simp [train, load_training_data, hR]

/-- C8 witness: both trainers fail with `notFound` on an absent path. -/
theorem train_missing_input_file_witness :
    CryptoEmbeddingTrainer.train (fun _ => none)
        (fun _ => Except.error (txt "unused")) (txt "missing.json") =
      Except.error (LoadError.notFound (txt "missing.json")) ∧
    RegimeClassifierTrainer.train (fun _ => none)
        (fun _ => Except.error (txt "unused")) (txt "missing.jsonl") =
      Except.error (LoadError.notFound (txt "missing.jsonl")) :=
  train_missing_input_file (fun _ => none) (fun _ => Except.error (txt "unused"))
    (txt "missing.json") (fun _ => none) (fun _ => Except.error (txt "unused"))
    (txt "missing.jsonl") rfl rfl
